import Mathlib

/-!
Verification of the nfl-stock-exchange live signal pipeline.

Probabilities are modelled as exact rationals (the source computes with
floats; every threshold in the source is an exact decimal).  Each section
embeds one source function; line references point into the repository.
-/

/-- Trailing probability `min(wp, 1 - wp)` (scripts/pbp_api.py line 47). -/
def trailing (w : ℚ) : ℚ := min w (1 - w)

/-- Mutable state carried across samples by `sustained_signals`
(scripts/pbp_api.py lines 49-51).  `hist` stores the trailing values of the
already-processed samples, most recent first, because the source indexes
`trailing[max(0, i-k)]` directly into the past. -/
structure SigState where
  hist : List ℚ
  rising : Nat
  falling : Nat
  outside : Nat
  one : Bool
  two : Bool
  deriving DecidableEq

/-- The source expression `trailing[max(0, i-k)]` read off the reversed
history list: position `k-1` counted from the most recent past value,
clamped to the oldest sample. -/
def lookback (hist : List ℚ) (k : Nat) : ℚ :=
  hist.getD (min (k - 1) (hist.length - 1)) 0

/-- Entry logic for state 1 (scripts/pbp_api.py lines 56-61), evaluated with
the trailing value `t` of the current sample; returns the updated
`(one_active, rising_streak)`.  While state 1 is already active, or while the
previous trailing value is not below 0.35, the streak is left untouched. -/
def one_entry (hist : List ℚ) (rising : Nat) (one : Bool) (t : ℚ) : Bool × Nat :=
  let p := hist.headD 0
  if one then (true, rising)
  else if p < 35/100 then
    let r := if t > p then rising + 1 else 0
    if r ≥ 5
        ∨ ((lookback hist 3 < 35/100 ∨ lookback hist 4 < 35/100 ∨ lookback hist 5 < 35/100)
            ∧ t ≥ 45/100)
        ∨ (p ≤ 30/100 ∧ t - p ≥ 15/100)
    then (true, r) else (false, r)
  else (false, rising)

/-- Exit logic for state 1 (scripts/pbp_api.py lines 62-66); returns the
updated `(one_active, falling_streak)`.  The falling streak counts strict
drops only, and is untouched while state 1 is inactive. -/
def one_exit (hist : List ℚ) (falling : Nat) (one : Bool) (t : ℚ) : Bool × Nat :=
  let p := hist.headD 0
  if one then
    let f := if t < p then falling + 1 else 0
    if f ≥ 3 ∨ t - p ≤ -(15/100) ∨ 1 - t ≤ 40/100 then (false, 0) else (true, f)
  else (one, falling)

/-- State 2 logic (scripts/pbp_api.py lines 67-76); returns the updated
`(two_active, outside_band)`. -/
def two_step (outside : Nat) (two : Bool) (q : Int) (t : ℚ) : Bool × Nat :=
  if q = 4 then
    if 40/100 ≤ t ∧ t ≤ 60/100 then (true, 0)
    else if outside + 1 ≥ 4 then (false, outside + 1)
    else (two, outside + 1)
  else (false, 0)

/-- One iteration of the `for i in range(1, n)` loop of `sustained_signals`
(scripts/pbp_api.py lines 52-77) on sample `(q, w)`: entry logic, then exit
logic on the resulting activity, then the quarter-gated state 2, then the
reported label `2 if two_active else (1 if one_active else 0)`. -/
def sigStep (s : SigState) (q : Int) (w : ℚ) : SigState × Int :=
  let t := trailing w
  let e := one_entry s.hist s.rising s.one t
  let x := one_exit s.hist s.falling e.1 t
  let tw := two_step s.outside s.two q t
  let label : Int := if tw.1 then 2 else if x.1 then 1 else 0
  (⟨t :: s.hist, e.2, x.2, tw.2, x.1, tw.1⟩, label)

/-- Runs the loop body over the remaining samples, collecting the state after
each sample together with its label. -/
def sigProc (s : SigState) : List (Int × ℚ) → List (SigState × Int)
  | [] => []
  | (q, w) :: rest =>
    let r := sigStep s q w
    r :: sigProc r.1 rest

/-- Detector state after the first sample: its trailing value is recorded,
all streaks are zero and both states are inactive (`label[0]` stays 0). -/
def sigInit (x : Int × ℚ) : SigState :=
  ⟨[trailing x.2], 0, 0, 0, false, false⟩

/-- Embeds `sustained_signals` (scripts/pbp_api.py lines 43-80) on one game:
the input is the ordered list of `(qtr, wp)` samples (the source sorts by
`game_id, play_id` first), the output the `signal` column. -/
def sustained_signals : List (Int × ℚ) → List Int
  | [] => []
  | x :: rest => 0 :: (sigProc (sigInit x) rest).map Prod.snd

/-- Detector state after each sample (index `i` holds the state once sample
`i` has been processed). -/
def sigStatesFrom : List (Int × ℚ) → List SigState
  | [] => []
  | x :: rest => sigInit x :: (sigProc (sigInit x) rest).map Prod.fst

/-- `one_active` after sample `i`. -/
def oneAt (l : List (Int × ℚ)) (i : Nat) : Bool :=
  ((sigStatesFrom l).getD i ⟨[], 0, 0, 0, false, false⟩).one

/-- Trailing value of sample `i`. -/
def trailAt (l : List (Int × ℚ)) (i : Nat) : ℚ :=
  trailing (l.getD i (0, 0)).2

/-- Formalization of claim C1 exactly as stated: while state 1 is active it
is deactivated at sample `i` if and only if three consecutive non-rising
steps have occurred, or the single-step change is at most -0.15, or the
trailing probability has fallen back to at most 0.40. -/
def claimOneExit : Prop :=
  ∀ (l : List (Int × ℚ)) (i : Nat), 1 ≤ i → i < l.length → oneAt l (i - 1) = true →
    (oneAt l i = false ↔
      ((3 ≤ i ∧ trailAt l i ≤ trailAt l (i - 1) ∧ trailAt l (i - 1) ≤ trailAt l (i - 2)
          ∧ trailAt l (i - 2) ≤ trailAt l (i - 3))
        ∨ trailAt l i - trailAt l (i - 1) ≤ -(15/100)
        ∨ trailAt l i ≤ 40/100))

/-- Detector state of `compute_signals` (machine-learning/ml-dev/scripts/
game_replay.py lines 105-112). -/
structure RepState where
  hist : List ℚ
  down : Nat
  close : Nat
  outb : Nat
  act1 : Bool
  act2 : Bool
  deriving DecidableEq

/-- One strictly-rising run condition of the `for L in (3, 4, 5)` loop in
`compute_signals` (game_replay.py lines 130-139): at least `L-1` earlier
samples exist, the last `L` trailing values (ending at the current `tp`) are
strictly increasing, and the first of them is below 0.35. -/
def riseSegL (hist : List ℚ) (tp : ℚ) (L : Nat) : Prop :=
  hist.length ≥ L - 1
    ∧ List.Chain' (· < ·) ((hist.take (L - 1)).reverse ++ [tp])
    ∧ hist.getD (L - 2) 0 < 35/100

instance (hist : List ℚ) (tp : ℚ) (L : Nat) : Decidable (riseSegL hist tp L) := by
  unfold riseSegL; infer_instance

/-- One iteration of the `for i in range(n)` loop of `compute_signals`
(game_replay.py lines 114-178).  Unlike `sustained_signals` the loop starts
at index 0 (`prev` falls back to the current trailing value), entry and exit
of state 1 are exclusive alternatives, state 2 requires a streak of 4
in-band fourth-quarter samples to activate, and its band test is on the
favourite probability `max(wp, 1-wp)`. -/
def repStep (s : RepState) (q : Int) (w : ℚ) : RepState × Int :=
  let tp := trailing w
  let prev := s.hist.headD tp
  let delta := tp - prev
  let st1 : Bool × Nat :=
    if s.act1 then
      let d := if delta ≤ 0 then s.down + 1 else 0
      if delta ≤ -(15/100) ∨ d ≥ 3 then (false, 0) else (true, d)
    else
      if (s.hist ≠ [] ∧ prev ≤ 30/100 ∧ delta ≥ 15/100)
          ∨ (s.hist.length ≥ 4
              ∧ List.Chain' (· < ·) ((s.hist.take 4).reverse ++ [tp])
              ∧ s.hist.getD 3 0 < 35/100)
          ∨ ((riseSegL s.hist tp 3 ∨ riseSegL s.hist tp 4 ∨ riseSegL s.hist tp 5)
              ∧ tp ≥ 45/100)
      then (true, 0) else (false, s.down)
  let fav := max w (1 - w)
  let st2 : Bool × Nat × Nat :=
    if q = 4 ∧ 4/10 ≤ fav ∧ fav ≤ 6/10 then
      (if s.close + 1 ≥ 4 then true else s.act2, s.close + 1, 0)
    else if s.act2 then
      (if s.outb + 1 ≥ 4 then ((false : Bool), (0 : Nat), (0 : Nat))
       else (true, s.close, s.outb + 1))
    else (false, 0, 0)
  let label : Int := if st2.1 then 2 else if st1.1 then 1 else 0
  (⟨tp :: s.hist, st1.2, st2.2.1, st2.2.2, st1.1, st2.1⟩, label)

/-- Runs the `compute_signals` loop body over the samples, collecting state
and label per sample. -/
def repProc (s : RepState) : List (Int × ℚ) → List (RepState × Int)
  | [] => []
  | (q, w) :: rest =>
    let r := repStep s q w
    r :: repProc r.1 rest

/-- Embeds `compute_signals` (game_replay.py lines 99-182): the signal column
over the ordered `(qtr, wp)` samples of one game. -/
def compute_signals (l : List (Int × ℚ)) : List Int :=
  (repProc ⟨[], 0, 0, 0, false, false⟩ l).map Prod.snd

/-! Live monitor: `_update_signal` calls `sustained_signals` with two list
arguments (inference/live_monitor.py line 204) although the imported function
(scripts/pbp_api.py line 43) takes a single DataFrame parameter. -/

/-- A Python value passed to `sustained_signals`. -/
inductive PyVal where
  | intList (l : List Int)
  | ratList (l : List ℚ)
  | frame (rows : List (Int × ℚ))
  deriving DecidableEq

/-- `sustained_signals` viewed as a Python callable: exactly one positional
parameter, which must be a play DataFrame; any other argument vector raises
(a TypeError), modelled as `Except.error`. -/
def sustained_signals_apply : List PyVal → Except String (List Int)
  | [PyVal.frame rows] => Except.ok (sustained_signals rows)
  | _ => Except.error "TypeError"

/-- Embeds `_update_signal` (live_monitor.py lines 193-207): when the import
failed (`sustained_signals is None`) it returns None at once; otherwise it
appends the new `(qtr, wp)` to the per-game lists and calls
`sustained_signals(st["qtrs"], st["wps"])` inside try/except — two positional
arguments, so the call raises and the except branch yields `none`.  (Even the
unreachable ok branch would raise: `int(label)` of a DataFrame is again a
TypeError, hence `none` there as well.) -/
def update_signal (imported : Bool) (qtrs : List Int) (wps : List ℚ)
    (qtr : Int) (wp : ℚ) : (List Int × List ℚ) × Option Int :=
  if imported = false then ((qtrs, wps), none)
  else
    let qtrs2 := qtrs ++ [qtr]
    let wps2 := wps ++ [wp]
    match sustained_signals_apply [PyVal.intList qtrs2, PyVal.ratList wps2] with
    | Except.ok _ => ((qtrs2, wps2), none)
    | Except.error _ => ((qtrs2, wps2), none)

/-- The `signal` field built by `_build_payload` (live_monitor.py line 232):
`int(signal) if signal is not None else 0`. -/
def payload_signal (signal : Option Int) : Int := signal.getD 0

/-! Ensemble blending. -/

/-- The blended swing probability `0.35*p_xgb + 0.35*p_lgb + 0.2*p_rf +
0.1*p_lr` (scripts/pbp_api.py line 115; identical in game_replay.py line
204). -/
def blended_prob (p_xgb p_lgb p_rf p_lr : ℚ) : ℚ :=
  35/100 * p_xgb + 35/100 * p_lgb + 2/10 * p_rf + 1/10 * p_lr

/-- Embeds `_predict_swing_prob` (live_monitor.py lines 179-191) given the
list of per-model probabilities that were collected without an exception:
0.0 when the list is empty (covering the `X is None / no models / no probs`
guards), otherwise `np.mean(probs)`. -/
def predict_swing_prob (probs : List ℚ) : ℚ :=
  if probs = [] then 0 else probs.sum / (probs.length : ℚ)

/-! Game worker deduplication (inference/live_monitor.py). -/

/-- One row of the fetched play-by-play frame, restricted to the columns the
worker loop reads. -/
structure Play where
  play_id : Option String := none
  id : Option String := none
  uid : Option String := none
  qtr : Option Int := none
  secs : Option Int := none
  deriving DecidableEq

/-- Helper for `_play_id_value` (live_monitor.py lines 216-221): the first
key among play_id/id/uid whose value is present and non-empty, else "". -/
def first_nonempty : List (Option String) → String
  | [] => ""
  | some s :: rest => if s = "" then first_nonempty rest else s
  | none :: rest => first_nonempty rest

/-- `_play_id_value` over the three candidate keys. -/
def play_id_value (p : Play) : String :=
  first_nonempty [p.play_id, p.id, p.uid]

/-- Sort key of `_ensure_sorted` (live_monitor.py lines 59-66): quarter, then
seconds, then play id. -/
def sort_key (p : Play) : Int × Int × String :=
  (p.qtr.getD 0, p.secs.getD 0, p.play_id.getD "")

/-- Strict lexicographic order on the sort key. -/
def key_lt (a b : Int × Int × String) : Bool :=
  if a.1 ≠ b.1 then decide (a.1 < b.1)
  else if a.2.1 ≠ b.2.1 then decide (a.2.1 < b.2.1)
  else decide (a.2.2 < b.2.2)

/-- Stable insertion of one row in front of the first row with a key not
below it. -/
def sort_insert (x : Play) : List Play → List Play
  | [] => [x]
  | y :: ys => if key_lt (sort_key y) (sort_key x) then y :: sort_insert x ys else x :: y :: ys

/-- `_ensure_sorted`: a stable sort of the frame on (quarter, seconds, play
id), modelling `sort_values(..., kind="mergesort")`. -/
def ensure_sorted (l : List Play) : List Play := l.foldr sort_insert []

/-- Per-game session of `_game_worker` (live_monitor.py lines 297-299): the
last delivered play id and last observed frame length. -/
structure WorkerSt where
  lastPid : Option String := none
  lastLen : Option Nat := none
  deriving DecidableEq

/-- Outcome of one `collector.get_play_by_play` poll. -/
inductive Fetch where
  | fail
  | ok (rows : List Play)
  deriving DecidableEq

/-- One iteration of the `_game_worker` polling loop (live_monitor.py lines
301-326), returning the updated session and the number of times the
extraction → prediction → detection → publish chain (`_process_new_play`)
ran during the iteration (0 or 1).  A failed fetch and an empty frame only
sleep; a fresh latest play id runs the chain once and records the id. -/
def game_worker_iter (st : WorkerSt) (f : Fetch) : WorkerSt × Nat :=
  match f with
  | Fetch.fail => (st, 0)
  | Fetch.ok rows =>
    if rows = [] then (st, 0)
    else
      let sorted := ensure_sorted rows
      let pid := play_id_value (sorted.getLastD {})
      let l := sorted.length
      if pid ≠ "" ∧ some pid ≠ st.lastPid then
        (⟨some pid, some l⟩, 1)
      else if st.lastLen = none ∨ some l ≠ st.lastLen then
        (⟨st.lastPid, some l⟩, 0)
      else (st, 0)

/-! Feature extraction (machine-learning/ml-dev/features/comprehensive_features.py). -/

/-- The `game_state` dict fields read by the extractor. -/
structure GmState where
  home_score : Int := 0
  away_score : Int := 0
  quarter : Int := 1
  clock : Option String := none


/-- One play-by-play row; `none` stands for an absent column or a None
value. -/
structure PlayRow where
  play_text : Option String := none
  yards_gained : Option ℚ := none
  scoring_play : Option Bool := none
  down : Option Int := none
  distance : Option Int := none
  yardline : Option Int := none
  home_score : Option Int := none
  away_score : Option Int := none


/-- The `game_data` dict: game state, play-by-play rows in order, and the
current home win probability when the `win_probability` dict is truthy (the
`injuries` entry is read but unused by the extractor). -/
structure GameData where
  game_state : GmState
  play_by_play : List PlayRow
  win_probability : Option ℚ := none


/-- The feature mapping, one field per name produced by the source (all
numeric values as rationals). -/
structure FeatureMap where
  wp : ℚ := 0
  wp_change_abs : ℚ := 0
  wp_change_3plays_abs : ℚ := 0
  wp_change_5plays_abs : ℚ := 0
  rolling_epa_3 : ℚ := 0
  rolling_epa_std_3 : ℚ := 0
  rolling_wp_std_3 : ℚ := 0
  rolling_epa_5 : ℚ := 0
  rolling_epa_std_5 : ℚ := 0
  rolling_wp_std_5 : ℚ := 0
  rolling_epa_10 : ℚ := 0
  rolling_epa_std_10 : ℚ := 0
  rolling_wp_std_10 : ℚ := 0
  turnover : ℚ := 0
  explosive_play : ℚ := 0
  scoring_play : ℚ := 0
  sack : ℚ := 0
  fourth_down_attempt : ℚ := 0
  fourth_down_converted : ℚ := 0
  fourth_down_failed : ℚ := 0
  score_diff : ℚ := 0
  is_close_game : ℚ := 0
  is_very_close : ℚ := 0
  is_fourth_qtr : ℚ := 0
  is_crunch_time : ℚ := 0
  is_final_2min : ℚ := 0
  leverage_index : ℚ := 0
  in_red_zone : ℚ := 0
  in_fg_range : ℚ := 0
  field_position_value : ℚ := 0
  third_down : ℚ := 0
  long_distance : ℚ := 0
  short_yardage : ℚ := 0
  down : ℚ := 0
  ydstogo : ℚ := 0
  yardline_100 : ℚ := 0
  qtr : ℚ := 0
  game_seconds_remaining : ℚ := 0
  yards_gained : ℚ := 0
  epa : ℚ := 0


/-- `get_default_features` (comprehensive_features.py lines 138-153): every
feature 0. -/
def get_default_features : FeatureMap := {}

/-- `_estimate_wp_from_score` (comprehensive_features.py lines 115-124):
0.5 + score difference / 50, clamped to [0, 1]; missing scores default
to 0. -/
def estimate_wp_from_score (row : PlayRow) : ℚ :=
  let diff : ℚ := ((row.home_score.getD 0 : Int) : ℚ) - ((row.away_score.getD 0 : Int) : ℚ)
  max 0 (min 1 (1/2 + diff / 50))

/-- `_parse_clock_to_seconds` (comprehensive_features.py lines 126-136):
parses "MM:SS", adds 900 seconds per remaining regulation quarter; any parse
failure (missing part, non-integer part) yields the except value 900. -/
def parse_clock_to_seconds (clock : String) (quarter : Int) : Int :=
  match (clock.splitOn ":").map String.toInt? with
  | some m :: some s :: _ => max (4 - quarter) 0 * 900 + (m * 60 + s)
  | _ => 900

/-- pandas `Series.mean` over a column with missing values skipped (the
empty-mean NaN case is modelled as 0; no claim depends on it). -/
def series_mean (l : List (Option ℚ)) : ℚ :=
  let v := l.filterMap id
  if v = [] then 0 else v.sum / (v.length : ℚ)

/-- Substring test modelling the Python `in` operator on strings (pattern
non-empty at every use site). -/
def contains_sub (s pat : String) : Bool := (s.splitOn pat).length ≥ 2

/-- The mean / std / wp-std triple of one rolling window (comprehensive_
features.py lines 46-56).  `pstd` abstracts pandas `Series.std` (ddof = 1),
whose value is irrational in general; every claim here is independent of
it. -/
def rolling_of (pstd : List ℚ → ℚ) (wnd : List PlayRow) : ℚ × ℚ × ℚ :=
  if wnd.isEmpty then (0, 0, 0)
  else (series_mean (wnd.map PlayRow.yards_gained) / 10,
        if wnd.length > 1 then pstd ((wnd.map PlayRow.yards_gained).filterMap id) / 10 else 0,
        5/100)

/-- pandas `DataFrame.tail n`. -/
def tail_n (n : Nat) (l : List PlayRow) : List PlayRow := l.drop (l.length - n)

/-- Embeds `extract_features_from_live_data` (comprehensive_features.py
lines 11-113).  Every dict access with a default and every None guard of the
source is rendered with `Option.getD`; the rolling window selection follows
`recent_10.tail(window) if len(recent_10) >= window else recent_10`. -/
def extract_features_from_live_data (pstd : List ℚ → ℚ) (gd : GameData) : FeatureMap :=
  if gd.play_by_play.isEmpty then get_default_features
  else
    let pbp := gd.play_by_play
    let latest := pbp.getLastD {}
    let recent10 := tail_n 10 pbp
    let wp_f : ℚ := match gd.win_probability with
      | some h => h / 100
      | none => 1/2
    let wpc1 := if pbp.length ≥ 2 then
        |wp_f - estimate_wp_from_score (pbp.getD (pbp.length - 2) {})| else 0
    let wpc3 := if pbp.length ≥ 4 then
        |wp_f - estimate_wp_from_score (pbp.getD (pbp.length - 4) {})| else 0
    let wpc5 := if pbp.length ≥ 6 then
        |wp_f - estimate_wp_from_score (pbp.getD (pbp.length - 6) {})| else 0
    let w3 := rolling_of pstd (if recent10.length ≥ 3 then tail_n 3 recent10 else recent10)
    let w5 := rolling_of pstd (if recent10.length ≥ 5 then tail_n 5 recent10 else recent10)
    let w10 := rolling_of pstd (if recent10.length ≥ 10 then tail_n 10 recent10 else recent10)
    let text := latest.play_text.getD ""
    let turnover : ℚ :=
      if contains_sub text.toUpper "INTERCEPTED" ∨ contains_sub text.toUpper "FUMBLE"
      then 1 else 0
    let explosive : ℚ := if latest.yards_gained.getD 0 ≥ 20 then 1 else 0
    let scoring : ℚ := if latest.scoring_play.getD false then 1 else 0
    let sack : ℚ := if contains_sub text.toLower "sack" then 1 else 0
    let fourth_att : ℚ := if latest.down = some 4 then 1 else 0
    let score_diff : ℚ :=
      |((gd.game_state.home_score : ℚ)) - ((gd.game_state.away_score : ℚ))|
    let is_close : ℚ := if score_diff ≤ 8 then 1 else 0
    let is_vclose : ℚ := if score_diff ≤ 3 then 1 else 0
    let is_q4 : ℚ := if gd.game_state.quarter = 4 then 1 else 0
    let secs := parse_clock_to_seconds (gd.game_state.clock.getD "15:00") gd.game_state.quarter
    let is_crunch : ℚ := if gd.game_state.quarter = 4 ∧ secs < 300 then 1 else 0
    let is_2min : ℚ := if gd.game_state.quarter = 4 ∧ secs < 120 then 1 else 0
    let leverage := is_close * (1 + is_q4) * (1 + is_crunch) * (1 + is_2min)
    let yardline : Int := latest.yardline.getD 50
    let downv : Int := latest.down.getD 1
    let ydstogo : Int := latest.distance.getD 10
    let yg : ℚ := latest.yards_gained.getD 0
    { wp := wp_f
      wp_change_abs := wpc1
      wp_change_3plays_abs := wpc3
      wp_change_5plays_abs := wpc5
      rolling_epa_3 := w3.1, rolling_epa_std_3 := w3.2.1, rolling_wp_std_3 := w3.2.2
      rolling_epa_5 := w5.1, rolling_epa_std_5 := w5.2.1, rolling_wp_std_5 := w5.2.2
      rolling_epa_10 := w10.1, rolling_epa_std_10 := w10.2.1, rolling_wp_std_10 := w10.2.2
      turnover := turnover
      explosive_play := explosive
      scoring_play := scoring
      sack := sack
      fourth_down_attempt := fourth_att
      fourth_down_converted := 0
      fourth_down_failed := 0
      score_diff := score_diff
      is_close_game := is_close
      is_very_close := is_vclose
      is_fourth_qtr := is_q4
      is_crunch_time := is_crunch
      is_final_2min := is_2min
      leverage_index := leverage
      in_red_zone := if yardline ≤ 20 then 1 else 0
      in_fg_range := if yardline ≤ 35 then 1 else 0
      field_position_value := ((100 - yardline : Int) : ℚ)
      third_down := if downv = 3 then 1 else 0
      long_distance := if ydstogo ≥ 7 then 1 else 0
      short_yardage := if ydstogo ≤ 2 then 1 else 0
      down := (downv : ℚ)
      ydstogo := (ydstogo : ℚ)
      yardline_100 := (yardline : ℚ)
      qtr := (gd.game_state.quarter : ℚ)
      game_seconds_remaining := (secs : ℚ)
      yards_gained := yg
      epa := yg / 10 }

/-! Publisher (`_push_to_api`, inference/live_monitor.py lines 243-264). -/

/-- Outcome of one `requests.post`: an HTTP status, or an exception (timeout,
connection error, ...). -/
inductive PostResult where
  | status (code : Nat)
  | exn
  deriving DecidableEq

/-- The base-URL rewriting at the top of `_push_to_api` (lines 246-256). -/
def api_base_of (b : String) : String :=
  if contains_sub b "/ingest" then b.replace "/ingest" ""
  else if contains_sub b "/update" then b.replace "/update" ""
  else if contains_sub b "/events" then b.replace "/events" ""
  else if contains_sub b "/next_push" then b.replace "/next_push" ""
  else b

/-- The POST target `f"{api_base}/games/{game_id}/plays"`. -/
def post_url (b gid : String) : String :=
  api_base_of b ++ "/games/" ++ gid ++ "/plays"

/-- Embeds `_push_to_api` as the list of URLs actually POSTed, in order: each
configured sink is tried once; a 202 response stops the loop; any other
status or an exception moves on to the next sink; the loop end returns
normally (the source catches every exception, so nothing propagates to the
caller). -/
def push_to_api (endpoints : List String) (gid : String)
    (beh : String → PostResult) : List String :=
  match endpoints with
  | [] => []
  | b :: rest =>
    let u := post_url b gid
    match beh u with
    | PostResult.status c => if c = 202 then [u] else u :: push_to_api rest gid beh
    | PostResult.exn => u :: push_to_api rest gid beh

/-! Replay query endpoint (`/next`, scripts/pbp_api.py lines 131-173). -/

/-- One row of the precomputed game sequence (`signal` is `none` where the
merge produced NaN). -/
structure GameRow where
  signal : Option Int := none
  wp : ℚ := 0
  desc : String := ""
  game_id : String := ""
  play_id : Int := 0
  qtr : Int := 0
  prob : ℚ := 0
  posteam : Option String := none
  defteam : Option String := none
  down : Int := 0
  ydstogo : Int := 0
  yardline_100 : Int := 0
  game_seconds_remaining : Int := 0
  deriving DecidableEq

/-- The cursor state `STATE[key] = {"rows": rows, "i": i}`. -/
structure SessionSt where
  rows : List GameRow
  i : Nat
  deriving DecidableEq

/-- The minimal payload (lines 152-156). -/
structure MinimalPayload where
  signal : Int
  wp : ℚ
  desc : String
  deriving DecidableEq

/-- The extra fields added under `verbose` (lines 157-170). -/
structure VerboseExt where
  game_id : String
  play_id : Int
  qtr : Int
  prob : ℚ
  posteam : Option String
  defteam : Option String
  down : Int
  ydstogo : Int
  yardline_100 : Int
  game_seconds_remaining : Int
  remaining : Int
  deriving DecidableEq

/-- A `/next` response: either the done marker or a play payload. -/
inductive NextResp where
  | done (remaining : Nat)
  | play (minimal : MinimalPayload) (verbose : Option VerboseExt)
  deriving DecidableEq

/-- The minimal payload of a row: `int(signal)` with NaN mapped to 0, wp,
desc. -/
def minimal_of (r : GameRow) : MinimalPayload :=
  ⟨r.signal.getD 0, r.wp, r.desc⟩

/-- The verbose extension of a row. -/
def verbose_of (r : GameRow) (remaining : Int) : VerboseExt :=
  ⟨r.game_id, r.play_id, r.qtr, r.prob, r.posteam, r.defteam, r.down, r.ydstogo,
    r.yardline_100, r.game_seconds_remaining, remaining⟩

/-- The play payload carried by a response, if any. -/
def minimal_part : NextResp → Option MinimalPayload
  | NextResp.done _ => none
  | NextResp.play m _ => some m

/-- Embeds the `/next` handler `next_play` (scripts/pbp_api.py lines
131-173).  `loaded` stands for the `_load_sequence` result, installed when
`reset` is set or no session exists for the key.  Past the end of the rows
the handler answers done/remaining=0 without touching the cursor; otherwise
it answers the row under the cursor and advances the cursor unless `peek` is
set. -/
def next_play (session : Option SessionSt) (loaded : List GameRow)
    (reset peek verbose : Bool) : NextResp × SessionSt :=
  let st := match session with
    | none => SessionSt.mk loaded 0
    | some s => if reset then SessionSt.mk loaded 0 else s
  if st.rows.length ≤ st.i then (NextResp.done 0, st)
  else
    let row := st.rows.getD st.i {}
    let resp := NextResp.play (minimal_of row)
      (if verbose then some (verbose_of row ((st.rows.length : Int) - (st.i + 1))) else none)
    if peek then (resp, st) else (resp, ⟨st.rows, st.i + 1⟩)

/-! Helper lemmas. -/

/-- The trailing probability never exceeds one half. -/
theorem trailing_le_half (w : ℚ) : trailing w ≤ 1/2 := by
  unfold trailing
  rcases le_total w (1 - w) with h | h
  · rw [min_eq_left h]; linarith
  · rw [min_eq_right h]; linarith

/-- Processing a prefix of the samples yields the prefix of the processed
list. -/
theorem sigProc_take (s : SigState) (l : List (Int × ℚ)) (n : Nat) :
    sigProc s (l.take n) = (sigProc s l).take n := by
  induction l generalizing s n with
  | nil => simp [sigProc]
  | cons x rest ih =>
    cases n with
    | zero => simp [sigProc]
    | succ m =>
      cases x with
      | mk q w => simp [sigProc, ih]

/-- A label of 2 can only be produced by a sample whose quarter is 4. -/
theorem sigStep_label_two (s : SigState) (q : Int) (w : ℚ)
    (h : (sigStep s q w).2 = 2) : q = 4 := by
  by_contra hq
  simp [sigStep, two_step, hq] at h
  split at h <;> omega

/-- Trace form of `sigStep_label_two` over the loop. -/
theorem sigProc_label_two (s : SigState) (l : List (Int × ℚ)) (i : Nat)
    (h : i < l.length)
    (h2 : ((sigProc s l).map Prod.snd).getD i 7 = 2) :
    (l.getD i ((0:Int), (0:ℚ))).1 = 4 := by
  induction l generalizing s i with
  | nil => simp at h
  | cons x rest ih =>
    cases x with
    | mk q w =>
      cases i with
      | zero =>
        simp only [sigProc, List.map_cons, List.getD_cons_zero] at h2
        simpa using sigStep_label_two s q w h2
      | succ m =>
        simp only [sigProc, List.map_cons, List.getD_cons_succ] at h2
        simpa using ih _ m (by simpa using h) h2

/-! Claim C6: the detector is a pure function of the ordered sample prefix,
and the output at index 0 is always 0. -/

/-- C6: for every ordered sample sequence, the signals of a prefix are the
prefix of the signals (so the output at index `k` depends only on samples
`0..k`), and the output at index 0 is always 0. -/
theorem sustained_signals_prefix_deterministic :
    (∀ (l : List (Int × ℚ)) (n : Nat),
        sustained_signals (l.take n) = (sustained_signals l).take n)
    ∧ ∀ l : List (Int × ℚ), l ≠ [] → (sustained_signals l).getD 0 7 = 0 := by
  constructor
  · intro l n
    cases l with
    | nil => simp [sustained_signals]
    | cons x rest =>
      cases n with
      | zero => simp [sustained_signals]
      | succ m =>
        simp [sustained_signals, ← List.map_take, sigProc_take]
  · intro l h
    cases l with
    | nil => exact absurd rfl h
    | cons x rest => simp [sustained_signals]

/-- Witness for C6 at a concrete one-sample input. -/
theorem sustained_signals_prefix_deterministic_witness :
    (sustained_signals [((4:Int), (1:ℚ)/2)]).getD 0 7 = 0 :=
  sustained_signals_prefix_deterministic.2 [((4:Int), (1:ℚ)/2)] (by simp)

/-! Claim C4: signal 2 outside the fourth quarter. -/

/-- C4 (amended): `sustained_signals` never reports signal 2 at a sample
whose quarter is not 4. -/
theorem sustained_signals_two_only_in_q4 (l : List (Int × ℚ)) (i : Nat)
    (h : i < l.length) (h2 : (sustained_signals l).getD i 7 = 2) :
    (l.getD i ((0:Int), (0:ℚ))).1 = 4 := by
  cases l with
  | nil => simp at h
  | cons x rest =>
    cases i with
    | zero => simp [sustained_signals] at h2
    | succ m =>
      simp only [sustained_signals, List.getD_cons_succ] at h2
      simpa using sigProc_label_two _ rest m (by simpa using h) h2

/-- Witness for C4: a fourth-quarter tossup sample reports 2, and the theorem
places it in quarter 4. -/
theorem sustained_signals_two_only_in_q4_witness :
    (sustained_signals [((1:Int), (1:ℚ)/2), (4, 1/2)]).getD 1 7 = 2
    ∧ ([((1:Int), (1:ℚ)/2), (4, 1/2)].getD 1 ((0:Int), (0:ℚ))).1 = 4 := by
  have he : (sustained_signals [((1:Int), (1:ℚ)/2), (4, 1/2)]).getD 1 7 = 2 := by
    norm_num [sustained_signals, sigProc, sigStep, sigInit, one_entry, one_exit, two_step,
      trailing, lookback, min_def]
  exact ⟨he, sustained_signals_two_only_in_q4 _ 1 (by norm_num) he⟩

/-- C4 counterexample: `compute_signals` (the other cited SignalDetector
copy) still reports signal 2 at an overtime sample (quarter 5): state 2
activates after four in-band fourth-quarter samples and survives up to three
out-of-band samples, also beyond the fourth quarter. -/
theorem compute_signals_signal2_overtime_cex :
    compute_signals [((4:Int), (1:ℚ)/2), (4, 1/2), (4, 1/2), (4, 1/2), (5, 1/2)]
        = [0, 0, 0, 2, 2]
    ∧ ([((4:Int), (1:ℚ)/2), (4, 1/2), (4, 1/2), (4, 1/2), (5, 1/2)].getD 4 ((0:Int), (0:ℚ))).1
        = 5 := by
  constructor
  · norm_num [compute_signals, repProc, repStep, riseSegL, trailing, min_def, max_def,
      List.chain'_cons]
  · rfl

/-! Claim C5: the state 2 band and its exit streak. -/

/-- C5 (amended): state 2 of `sustained_signals` activates at any
fourth-quarter sample whose trailing probability lies in [0.40, 0.60]
(resetting the outside-band counter); outside the fourth quarter it is
always inactive; and at a fourth-quarter sample outside the band the counter
increments and state 2 survives exactly while the count of consecutive
outside-band samples stays below 4 — so it stays active through up to 3
such samples and deactivates at the 4th. -/
theorem sustained_signals_state2_gate (s : SigState) (q : Int) (w : ℚ) :
    ((sigStep s q w).1.two = (two_step s.outside s.two q (trailing w)).1)
    ∧ (q ≠ 4 → (sigStep s q w).1.two = false)
    ∧ (q = 4 → 40/100 ≤ trailing w → trailing w ≤ 60/100 →
        (sigStep s q w).1.two = true ∧ (sigStep s q w).1.outside = 0)
    ∧ (q = 4 → ¬(40/100 ≤ trailing w ∧ trailing w ≤ 60/100) →
        (sigStep s q w).1.outside = s.outside + 1
          ∧ ((sigStep s q w).1.two = true ↔ s.two = true ∧ s.outside + 1 < 4)) := by
  refine ⟨rfl, ?_, ?_, ?_⟩
  · intro hq
    simp [sigStep, two_step, hq]
  · intro hq h1 h2
    simp [sigStep, two_step, hq, h1, h2]
  · intro hq hband
    have htwo : (sigStep s q w).1.two
        = (if s.outside + 1 ≥ 4 then ((false : Bool), s.outside + 1)
           else (s.two, s.outside + 1)).1 := by
      show (two_step s.outside s.two q (trailing w)).1 = _
      unfold two_step
      rw [if_pos hq, if_neg hband]
    have hout2 : (sigStep s q w).1.outside
        = (if s.outside + 1 ≥ 4 then ((false : Bool), s.outside + 1)
           else (s.two, s.outside + 1)).2 := by
      show (two_step s.outside s.two q (trailing w)).2 = _
      unfold two_step
      rw [if_pos hq, if_neg hband]
    by_cases hc : s.outside + 1 ≥ 4
    · rw [if_pos hc] at htwo hout2
      refine ⟨hout2, ?_⟩
      rw [htwo]
      exact ⟨fun hf => Bool.noConfusion hf, fun hh => absurd hh.2 (by omega)⟩
    · rw [if_neg hc] at htwo hout2
      refine ⟨hout2, ?_⟩
      rw [htwo]
      exact ⟨fun hh => ⟨hh, by omega⟩, fun hh => hh.1⟩

/-- Witness for C5: a just-activated state 2 survives the first
fourth-quarter sample that leaves the band. -/
theorem sustained_signals_state2_gate_witness :
    (sigStep ⟨[], 0, 0, 0, false, true⟩ 4 (9/10)).1.two = true := by
  have h := (sustained_signals_state2_gate ⟨[], 0, 0, 0, false, true⟩ 4 (9/10)).2.2.2 rfl
    (by norm_num [trailing, min_def])
  exact h.2.mpr ⟨rfl, by norm_num⟩

/-- C5 counterexample: after activation in the fourth quarter, the 4th
consecutive sample outside the band already reports 0, not 2 — state 2 does
not stay active through 4 such samples as claimed. -/
theorem sustained_signals_state2_fourth_outside_cex :
    sustained_signals
        [((4:Int), (1:ℚ)/2), (4, 1/2), (4, 9/10), (4, 9/10), (4, 9/10), (4, 9/10)]
      = [0, 2, 2, 2, 2, 0] := by
  norm_num [sustained_signals, sigProc, sigStep, sigInit, one_entry, one_exit, two_step,
    trailing, lookback, min_def]

/-! Claim C1: the exit conditions of state 1. -/

/-- C1 counterexample: on the trace wp = [0.9, 0.7, 0.7] state 1 activates at
sample 1 (single-step jump from trailing 0.1 to 0.3) and remains active at
sample 2 although the trailing probability 0.3 is at most 0.40, which the
claim says must deactivate it. -/
theorem claimOneExit_cex : ¬ claimOneExit := by
  intro hc
  have h1 : oneAt [((1:Int), (9:ℚ)/10), (1, 7/10), (1, 7/10)] 1 = true := by
    norm_num [oneAt, sigStatesFrom, sigProc, sigStep, sigInit, one_entry, one_exit, two_step,
      trailing, lookback, min_def]
  have h2 : oneAt [((1:Int), (9:ℚ)/10), (1, 7/10), (1, 7/10)] 2 = true := by
    norm_num [oneAt, sigStatesFrom, sigProc, sigStep, sigInit, one_entry, one_exit, two_step,
      trailing, lookback, min_def]
  have h4 : trailAt [((1:Int), (9:ℚ)/10), (1, 7/10), (1, 7/10)] 2 ≤ 40/100 := by
    norm_num [trailAt, trailing, min_def]
  have h5 := (hc [((1:Int), (9:ℚ)/10), (1, 7/10), (1, 7/10)] 2 (by norm_num) (by norm_num)
    h1).mpr (Or.inr (Or.inr h4))
  rw [h2] at h5
  exact Bool.noConfusion h5

/-- C1 (amended): while state 1 is active, `sustained_signals` deactivates it
at the current sample if and only if the strictly-falling streak (reset by
any non-drop) reaches 3, or the single-step trailing change is at most
-0.15.  The third condition in the source, `(1 - trailing[i]) <= 0.40`,
never holds because the trailing probability is at most 0.5, so it never
contributes a deactivation. -/
theorem sustained_signals_one_exit_conditions (s : SigState) (q : Int) (w : ℚ)
    (h : s.one = true) :
    ((sigStep s q w).1.one = false ↔
      ((if trailing w < s.hist.headD 0 then s.falling + 1 else 0) ≥ 3
        ∨ trailing w - s.hist.headD 0 ≤ -(15/100))) := by
  have hw := trailing_le_half w
  have hstep : (sigStep s q w).1.one = (one_exit s.hist s.falling true (trailing w)).1 := by
    simp [sigStep, one_entry, h]
  have hthird : ¬ (1 - trailing w ≤ 40/100) := by linarith
  rw [hstep]
  show ((if (if trailing w < s.hist.headD 0 then s.falling + 1 else 0) ≥ 3
        ∨ trailing w - s.hist.headD 0 ≤ -(15/100)
        ∨ 1 - trailing w ≤ 40/100
      then ((false : Bool), (0 : Nat))
      else (true, if trailing w < s.hist.headD 0 then s.falling + 1 else 0)).1 = false)
    ↔ _
  by_cases hB : (if trailing w < s.hist.headD 0 then s.falling + 1 else 0) ≥ 3
      ∨ trailing w - s.hist.headD 0 ≤ -(15/100)
  · rw [if_pos (hB.elim (fun h1 => Or.inl h1) (fun h2 => Or.inr (Or.inl h2)))]
    simpa using hB
  · rw [if_neg (fun hor => hor.elim (fun h1 => hB (Or.inl h1))
      (fun hor2 => hor2.elim (fun h2 => hB (Or.inr h2)) (fun h3 => hthird h3)))]
    simpa using hB

/-- Witness for C1: an active state with a flat step (no drop, no big fall)
stays active. -/
theorem sustained_signals_one_exit_conditions_witness :
    (sigStep ⟨[(3:ℚ)/10], 0, 0, 0, true, false⟩ 1 (7/10)).1.one = true := by
  have h := sustained_signals_one_exit_conditions ⟨[(3:ℚ)/10], 0, 0, 0, true, false⟩ 1 (7/10) rfl
  cases hb : (sigStep ⟨[(3:ℚ)/10], 0, 0, 0, true, false⟩ 1 (7/10)).1.one with
  | false =>
    have h2 := h.mp hb
    norm_num [trailing, min_def] at h2
  | true => rfl

/-! Claim C2: the live-monitor signal path. -/

/-- C2: for every per-game state and every new sample, `_update_signal`
returns None — the two-list call to the one-parameter `sustained_signals`
raises and the except branch catches it (and a failed import returns None
even earlier) — and the payload built from that None carries signal 0, so
the live-monitor path never publishes a non-zero signal. -/
theorem update_signal_none_payload_zero (imported : Bool) (qtrs : List Int)
    (wps : List ℚ) (q : Int) (w : ℚ) :
    (update_signal imported qtrs wps q w).2 = none
    ∧ payload_signal (update_signal imported qtrs wps q w).2 = 0 := by
  cases imported <;>
    simp [update_signal, sustained_signals_apply, payload_signal]

/-! Claim C3: the blended swing probability. -/

/-- C3 counterexample: the live monitor blends by `np.mean`, not by the
0.35/0.35/0.20/0.10 combination — with per-model probabilities (1, 0, 0, 0)
the monitor publishes 0.25 while the claimed formula gives 0.35. -/
theorem predict_swing_prob_not_fixed_blend_cex :
    predict_swing_prob [1, 0, 0, 0] = 1/4
    ∧ blended_prob 1 0 0 0 = 35/100
    ∧ predict_swing_prob [1, 0, 0, 0] ≠ blended_prob 1 0 0 0 := by
  have h1 : predict_swing_prob [1, 0, 0, 0] = 1/4 := by
    unfold predict_swing_prob
    rw [if_neg (by simp)]
    norm_num
  have h2 : blended_prob 1 0 0 0 = 35/100 := by norm_num [blended_prob]
  refine ⟨h1, h2, ?_⟩
  rw [h1, h2]
  norm_num

/-- C3 (amended): the replay blend is exactly the convex combination
`0.35*p_xgb + 0.35*p_lgb + 0.20*p_rf + 0.10*p_lr` (weights summing to 1),
the live monitor averages the per-model probabilities uniformly, and under
either blend four models that all return the same probability pass it
through unchanged — in particular all-0.8 inputs blend to exactly 0.8. -/
theorem blended_prob_convex_combination :
    (∀ a b c d : ℚ, blended_prob a b c d = 35/100 * a + 35/100 * b + 2/10 * c + 1/10 * d)
    ∧ (∀ x : ℚ, blended_prob x x x x = x ∧ predict_swing_prob [x, x, x, x] = x)
    ∧ blended_prob (8/10) (8/10) (8/10) (8/10) = 8/10
    ∧ predict_swing_prob [(8:ℚ)/10, 8/10, 8/10, 8/10] = 8/10 := by
  refine ⟨fun a b c d => rfl, fun x => ⟨?_, ?_⟩, ?_, ?_⟩
  · unfold blended_prob; ring
  · unfold predict_swing_prob
    rw [if_neg (by simp)]
    simp
    ring
  · norm_num [blended_prob]
  · unfold predict_swing_prob
    rw [if_neg (by simp)]
    norm_num

/-! Claim C7: worker deduplication by play id. -/

/-- A worker iteration runs the processing chain at most once. -/
theorem game_worker_iter_le_one (st : WorkerSt) (f : Fetch) :
    (game_worker_iter st f).2 ≤ 1 := by
  cases f with
  | fail => simp [game_worker_iter]
  | ok rows =>
    by_cases hempty : rows = []
    · simp [game_worker_iter, hempty]
    · simp only [game_worker_iter, if_neg hempty]
      split
      · simp
      · split <;> simp

/-- C7: when the fetched frame's latest play id equals the last delivered
one, a worker iteration runs the processing chain zero times; and on any two
consecutive iterations that fetch the same frame the chain runs at most
once. -/
theorem game_worker_dedup (st : WorkerSt) (rows : List Play) :
    (st.lastPid = some (play_id_value ((ensure_sorted rows).getLastD {})) →
        (game_worker_iter st (Fetch.ok rows)).2 = 0)
    ∧ (game_worker_iter st (Fetch.ok rows)).2
        + (game_worker_iter (game_worker_iter st (Fetch.ok rows)).1 (Fetch.ok rows)).2 ≤ 1 := by
  constructor
  · intro hsame
    by_cases hempty : rows = []
    · simp [game_worker_iter, hempty]
    · have hne : ¬ (play_id_value ((ensure_sorted rows).getLastD {}) ≠ ""
          ∧ some (play_id_value ((ensure_sorted rows).getLastD {})) ≠ st.lastPid) := by
        rintro ⟨-, hx⟩
        exact hx hsame.symm
      simp only [game_worker_iter, if_neg hempty]
      rw [if_neg hne]
      split <;> rfl
  · by_cases hempty : rows = []
    · simp [game_worker_iter, hempty]
    · by_cases hfresh : play_id_value ((ensure_sorted rows).getLastD {}) ≠ ""
          ∧ some (play_id_value ((ensure_sorted rows).getLastD {})) ≠ st.lastPid
      · have h1 : game_worker_iter st (Fetch.ok rows)
            = (⟨some (play_id_value ((ensure_sorted rows).getLastD {})),
                some (ensure_sorted rows).length⟩, 1) := by
          simp only [game_worker_iter, if_neg hempty]
          rw [if_pos hfresh]
        have h2 : (game_worker_iter
            (⟨some (play_id_value ((ensure_sorted rows).getLastD {})),
              some (ensure_sorted rows).length⟩ : WorkerSt) (Fetch.ok rows)).2 = 0 := by
          simp only [game_worker_iter, if_neg hempty]
          rw [if_neg (fun hand => hand.2 rfl)]
          split <;> rfl
        rw [h1]
        show 1 + (game_worker_iter
            (⟨some (play_id_value ((ensure_sorted rows).getLastD {})),
              some (ensure_sorted rows).length⟩ : WorkerSt) (Fetch.ok rows)).2 ≤ 1
        rw [h2]
      · have h1 : (game_worker_iter st (Fetch.ok rows)).2 = 0 := by
          simp only [game_worker_iter, if_neg hempty]
          rw [if_neg hfresh]
          split <;> rfl
        rw [h1]
        simpa using game_worker_iter_le_one (game_worker_iter st (Fetch.ok rows)).1
          (Fetch.ok rows)

/-- Witness for C7: feeding a frame whose latest play id matches the session
runs the chain zero times. -/
theorem game_worker_dedup_witness :
    (game_worker_iter ⟨some "p1", some 1⟩
      (Fetch.ok [{ play_id := some "p1" }])).2 = 0 :=
  (game_worker_dedup ⟨some "p1", some 1⟩ [{ play_id := some "p1" }]).1 (by
    simp [ensure_sorted, sort_insert, play_id_value, first_nonempty])

/-! Claim C8: feature extraction defaults. -/

/-- C8: for every game snapshot with at least one play whose latest play has
no down, no distance and no yardline, the extractor returns (it is total, so
it cannot raise) with the defaults applied: down 1, ydstogo 10, yardline 50,
and the derived down/distance/field-position features computed from those
defaults. -/
theorem extract_features_defaults (pstd : List ℚ → ℚ) (gd : GameData)
    (hne : gd.play_by_play ≠ [])
    (hdown : (gd.play_by_play.getLastD {}).down = none)
    (hdist : (gd.play_by_play.getLastD {}).distance = none)
    (hyl : (gd.play_by_play.getLastD {}).yardline = none) :
    (extract_features_from_live_data pstd gd).down = 1
    ∧ (extract_features_from_live_data pstd gd).ydstogo = 10
    ∧ (extract_features_from_live_data pstd gd).yardline_100 = 50
    ∧ (extract_features_from_live_data pstd gd).third_down = 0
    ∧ (extract_features_from_live_data pstd gd).long_distance = 1
    ∧ (extract_features_from_live_data pstd gd).short_yardage = 0
    ∧ (extract_features_from_live_data pstd gd).in_red_zone = 0
    ∧ (extract_features_from_live_data pstd gd).in_fg_range = 0
    ∧ (extract_features_from_live_data pstd gd).field_position_value = 50 := by
  have hne2 : gd.play_by_play.isEmpty = false := by
    cases hpb : gd.play_by_play with
    | nil => exact absurd hpb hne
    | cons a l => simp [List.isEmpty]
  unfold extract_features_from_live_data
  simp only [hne2, Bool.false_eq_true, if_false, hdown, hdist, hyl, Option.getD_none]
  norm_num

/-- Witness for C8 at a one-play snapshot with all three optional fields
missing. -/
theorem extract_features_defaults_witness :
    (extract_features_from_live_data (fun _ => 0)
      ⟨⟨0, 0, 1, none⟩, [{}], none⟩).down = 1 :=
  (extract_features_defaults (fun _ => 0) ⟨⟨0, 0, 1, none⟩, [{}], none⟩
    (by simp) rfl rfl rfl).1

/-! Claim C9: the publisher attempts sinks in order, once each, stopping at
the first accepted response. -/

/-- C9: for every endpoint list, game id and sink behaviour, the POSTs made
by `_push_to_api` are exactly the configured sinks in order up to and
including the first one answering 202 (all of them when none does).  In
particular each sink is attempted at most once per play, and — the embedding
being a total function whose model of `requests.post` includes the exception
outcomes — no sink behaviour makes the push raise to its caller. -/
theorem push_to_api_trace (endpoints : List String) (gid : String)
    (beh : String → PostResult) :
    push_to_api endpoints gid beh
      = (endpoints.map (fun b => post_url b gid)).take
          ((endpoints.map (fun b => post_url b gid)).findIdx
            (fun u => decide (beh u = PostResult.status 202)) + 1) := by
  induction endpoints with
  | nil => simp [push_to_api]
  | cons b rest ih =>
    simp only [push_to_api, List.map_cons, List.findIdx_cons]
    cases hb : beh (post_url b gid) with
    | exn =>
      simp [ih]
    | status c =>
      by_cases hc : c = 202
      · subst hc
        simp
      · simp [hc, ih]

/-! Claim C10: the replay cursor of the `/next` endpoint. -/

/-- C10: with an existing session and no reset, (a) a peek call below the end
returns the play under the cursor and leaves the session (cursor and rows)
unchanged, so an immediately following call — peek or not, verbose or not —
returns the same play; (b) a non-peek call below the end advances the cursor
by exactly one and keeps the rows; (c) at or past the end the endpoint
returns done with remaining 0 and leaves the session unchanged. -/
theorem next_play_cursor_spec (st : SessionSt) (loaded : List GameRow) (vb : Bool) :
    (st.i < st.rows.length →
        (next_play (some st) loaded false true vb).2 = st
      ∧ minimal_part (next_play (some st) loaded false true vb).1
          = some (minimal_of (st.rows.getD st.i {}))
      ∧ (∀ pk2 vb2 : Bool,
          minimal_part (next_play (some ((next_play (some st) loaded false true vb).2))
              loaded false pk2 vb2).1
            = some (minimal_of (st.rows.getD st.i {})))
      ∧ (next_play (some st) loaded false false vb).2 = SessionSt.mk st.rows (st.i + 1))
    ∧ (st.rows.length ≤ st.i →
        ∀ pk : Bool, (next_play (some st) loaded false pk vb).1 = NextResp.done 0
          ∧ (next_play (some st) loaded false pk vb).2 = st) := by
  constructor
  · intro h
    have hlt : ¬ (st.rows.length ≤ st.i) := by omega
    have h2 : (next_play (some st) loaded false true vb).2 = st := by
      simp [next_play, hlt]
    refine ⟨h2, by simp [next_play, hlt, minimal_part], ?_, by simp [next_play, hlt]⟩
    intro pk2 vb2
    rw [h2]
    cases pk2 <;> simp [next_play, hlt, minimal_part]
  · intro h pk
    exact ⟨by simp [next_play, h], by simp [next_play, h]⟩

/-- Witness for C10: peeking a one-row session leaves it unchanged. -/
theorem next_play_cursor_spec_witness :
    (next_play (some ⟨[{ signal := some 2, wp := 1/2, desc := "d" }], 0⟩)
        [] false true false).2
      = ⟨[{ signal := some 2, wp := 1/2, desc := "d" }], 0⟩ :=
  ((next_play_cursor_spec ⟨[{ signal := some 2, wp := 1/2, desc := "d" }], 0⟩
    [] false).1 (by simp)).1
